import Mathlib

/-!
Verification of the session subsystem of the `crypto-info` repository
(`internal/pkg/session/`): the `Session` entity, the in-memory store
(`memory_store.go`), the redis-backed store (`redis_store` source file),
and the `Manager` (`session.go`).

Modelling conventions:
* Go `time.Time` instants are integers; `t.Before(u)` is `t < u`;
  `time.Duration` values (such as the configured max-age) are integers;
  `now.Add(d)` is `now + d` and `time.Until(t)` at instant `now` is `t - now`.
* Go `map[string]V` values are association lists `List (String × V)`;
  Go maps are reference values, so a session's `data` field is a heap
  reference (`Nat` index into a `Heap`, a list of map contents), which
  makes the copy-on-read / copy-on-write behaviour of the memory store,
  and caller-side mutation of a map, expressible.
* the payload values stored under a session's string keys
  (`interface{}` in Go) are opaque to all of the session logic; they are
  modelled as strings.
* a Go function returning `(T, error)` yields `Outcome T`: `ok` for a
  nil error, `err` for a non-nil error return, and `panic` for a runtime
  fault (nil-map write, unbalanced RWMutex release).
* each exported operation takes the current instant `now` explicitly,
  standing for all the `time.Now()` calls made during that operation.
-/

/-- Opaque payload value stored under a session data key (Go `interface{}`). -/
abbrev SVal := String

/-- Contents of one Go `map[string]interface{}` value. -/
abbrev DataMap := List (String × SVal)

/-- Heap of map objects; a Go map reference is an index into the heap. -/
abbrev Heap := List DataMap

/-- Reading a heap reference; out-of-range references read as the empty map. -/
def heapRead (h : Heap) (r : Nat) : DataMap :=
  h.getD r []

/-- Allocating a fresh map object (Go `make(map[string]interface{})` plus
`for k, v := range src` copy loops); returns the new heap and reference. -/
def heapAlloc (h : Heap) (d : DataMap) : Heap × Nat :=
  (h ++ [d], h.length)

/-- Writing through a map reference (Go `m[k] = v` mutates the shared object). -/
def heapWrite (h : Heap) (r : Nat) (d : DataMap) : Heap :=
  h.set r d

/-- Lookup in an association-list map (Go `v, ok := m[k]`). -/
def mapLookup {α : Type} (m : List (String × α)) (k : String) : Option α :=
  match m with
  | [] => none
  | (k', v) :: rest => if k' = k then some v else mapLookup rest k

/-- Insert/overwrite in an association-list map (Go `m[k] = v`). -/
def mapInsert {α : Type} (m : List (String × α)) (k : String) (v : α) :
    List (String × α) :=
  match m with
  | [] => [(k, v)]
  | (k', v') :: rest =>
      if k' = k then (k, v) :: rest else (k', v') :: mapInsert rest k v

/-- Removal from an association-list map (Go `delete(m, k)`). -/
def mapErase {α : Type} (m : List (String × α)) (k : String) :
    List (String × α) :=
  m.filter (fun kv => !decide (kv.1 = k))

/-- Keys of a Go map are unique; association lists representing a Go map
satisfy this predicate. -/
abbrev keysNodup {α : Type} (m : List (String × α)) : Prop :=
  (m.map Prod.fst).Nodup

/-- Session record (`session.go`, type `Session`); `dataRef` is the map
reference held by the Go `Data map[string]interface{}` field. -/
structure Session where
  id : String
  dataRef : Nat
  createdAt : Int
  updatedAt : Int
  expiresAt : Int
deriving DecidableEq, Repr

/-- Error values returned by the session layer, named after the exact
`errors.New` / `fmt.Errorf` messages in the source. -/
inductive SErr : Type
  /-- message `session not found` -/
  | notFound
  /-- message `session expired` -/
  | expired
  /-- message `session is nil` (store-level) / `session is required` (manager) -/
  | nilSession
  /-- message `session ID is required` -/
  | idRequired
  /-- message `session data not found` -/
  | dataNotFound
  /-- message `session config is required` -/
  | configRequired
  /-- message `redis client is required for redis store` -/
  | redisClientRequired
  /-- message `unsupported session store type: ` + the configured name -/
  | unsupportedStore (name : String)
deriving DecidableEq, Repr

/-- Result of a Go call returning `(α, error)`: `ok` for a nil error,
`err` for an error return, `panic` for a runtime fault. -/
inductive Outcome (α : Type) : Type
  | ok : α → Outcome α
  | err : SErr → Outcome α
  | panic : String → Outcome α
deriving DecidableEq, Repr

/-- Modelled from the spec: the configuration surface consumed by the
session subsystem (`internal/config` is not part of the session sources;
the spec lists `store` (`memory`/`remote`) and `maxAge` (duration), the
only fields this subsystem reads). -/
structure SessionConfig where
  store : String
  maxAge : Int
deriving DecidableEq, Repr

/-- In-memory store state (`memory_store.go`, type `MemoryStore`): the
`data map[string]*Session` field; `none` models the nil map left behind
by `Close`. -/
structure MemoryStore where
  data : Option (List (String × Session))
deriving DecidableEq, Repr

/-- State a memory-store operation acts on: the map heap plus the store. -/
abbrev MemState := Heap × MemoryStore

/-- MemoryStore.Get (`memory_store.go` lines 36-63): nil/absent entry is
`session not found`; an expired entry is deleted lazily and reported as
`session expired` (the lock juggling in that branch re-acquires the read
lock, so it is balanced); a live entry is returned as a fresh copy whose
`Data` map is a newly allocated copy of the stored one. -/
def MemoryStore.Get (now : Int) (sessionID : String) :
    MemState → Outcome Session × MemState :=
  fun (h, m) =>
    match m.data with
    | none => (.err .notFound, (h, m))
    | some tbl =>
        match mapLookup tbl sessionID with
        | none => (.err .notFound, (h, m))
        | some s =>
            if s.expiresAt < now then
              (.err .expired, (h, ⟨some (mapErase tbl sessionID)⟩))
            else
              let (h', r) := heapAlloc h (heapRead h s.dataRef)
              (.ok { s with dataRef := r }, (h', m))

/-- MemoryStore.Set (`memory_store.go` lines 66-84): stores a copy of the
argument whose `Data` map is freshly allocated (the source's nil-session
guard is unrepresentable here since `Session` is a value type); writing
the copy into a nil map (after `Close`) is a runtime fault. The copy is
built before the map assignment, as in the source. -/
def MemoryStore.Set (_now : Int) (sess : Session) :
    MemState → Outcome Unit × MemState :=
  fun (h, m) =>
    let (h', r) := heapAlloc h (heapRead h sess.dataRef)
    let stored : Session := { sess with dataRef := r }
    match m.data with
    | none => (.panic "assignment to entry in nil map", (h', m))
    | some tbl => (.ok (), (h', ⟨some (mapInsert tbl sess.id stored)⟩))

/-- MemoryStore.Delete (`memory_store.go` lines 87-94): unconditional
delete; Go `delete` on a nil map is a no-op, so a closed store is fine. -/
def MemoryStore.Delete (sessionID : String) :
    MemState → Outcome Unit × MemState :=
  fun (h, m) =>
    match m.data with
    | none => (.ok (), (h, m))
    | some tbl => (.ok (), (h, ⟨some (mapErase tbl sessionID)⟩))

/-- MemoryStore.Exists (`memory_store.go` lines 97-116): nil/absent entry
reports `false`; a live entry reports `true`. In the expired branch the
source releases the read lock, takes and releases the write lock to
delete the entry, and then returns `false, nil` WITHOUT re-acquiring the
read lock — the deferred `RUnlock` then fires on a lock with no readers,
which is the Go runtime fault `sync: RUnlock of unlocked RWMutex`
(contrast `Get`, whose expired branch re-acquires the read lock). The
entry has already been deleted when the fault fires. -/
def MemoryStore.Exists (now : Int) (sessionID : String) :
    MemState → Outcome Bool × MemState :=
  fun (h, m) =>
    match m.data with
    | none => (.ok false, (h, m))
    | some tbl =>
        match mapLookup tbl sessionID with
        | none => (.ok false, (h, m))
        | some s =>
            if s.expiresAt < now then
              (.panic "sync: RUnlock of unlocked RWMutex",
                (h, ⟨some (mapErase tbl sessionID)⟩))
            else
              (.ok true, (h, m))

/-- MemoryStore.Cleanup (`memory_store.go` lines 119-141): collects every
sessionID whose `ExpiresAt` is before `now` and deletes them, i.e. keeps
exactly the non-expired entries; ranging over a nil map visits nothing. -/
def MemoryStore.Cleanup (now : Int) :
    MemState → Outcome Unit × MemState :=
  fun (h, m) =>
    match m.data with
    | none => (.ok (), (h, m))
    | some tbl =>
        (.ok (), (h, ⟨some (tbl.filter (fun kv => !decide (kv.2.expiresAt < now)))⟩))

/-- MemoryStore.Close (`memory_store.go` lines 144-151): sets the map to nil. -/
def MemoryStore.Close : MemState → Outcome Unit × MemState :=
  fun (h, _) => (.ok (), (h, ⟨none⟩))

/-- Serialized form of a session (`json.Marshal` of `Session`): the map
contents are embedded by value in the JSON document. -/
structure SerializedSession where
  id : String
  data : DataMap
  createdAt : Int
  updatedAt : Int
  expiresAt : Int
deriving DecidableEq, Repr

/-- One redis value together with the per-key time-to-live it was set with. -/
structure RedisEntry where
  value : SerializedSession
  ttl : Int
deriving DecidableEq, Repr

/-- Redis backend state: the key/value pairs held by the server. The
model keeps entries until they are overwritten or deleted; native
key expiry is the backend's own behaviour, so a stale (expired) entry is
representable, which is exactly the situation the Manager's defensive
expiry double-check exists for. -/
abbrev RedisKV := List (String × RedisEntry)

/-- Marshalling a session (`json.Marshal(session)`): the data map's
contents are copied into the document. -/
def marshalSession (h : Heap) (s : Session) : SerializedSession :=
  ⟨s.id, heapRead h s.dataRef, s.createdAt, s.updatedAt, s.expiresAt⟩

/-- Unmarshalling a session (`json.Unmarshal`): allocates a fresh map
object holding the document's data pairs. -/
def unmarshalSession (h : Heap) (j : SerializedSession) : Session × Heap :=
  let (h', r) := heapAlloc h j.data
  (⟨j.id, r, j.createdAt, j.updatedAt, j.expiresAt⟩, h')

/-- RedisStore.getKey: the namespaced key `"session:" + id`. -/
def redisKey (sessionID : String) : String :=
  "session:" ++ sessionID

/-- RedisStore.Get (redis store source, lines 34-50): a missing key is
`session not found`; a present key is unmarshalled into a fresh session. -/
def RedisStore.Get (_now : Int) (sessionID : String) :
    Heap × RedisKV → Outcome Session × (Heap × RedisKV) :=
  fun (h, kv) =>
    match mapLookup kv (redisKey sessionID) with
    | none => (.err .notFound, (h, kv))
    | some e =>
        let (s, h') := unmarshalSession h e.value
        (.ok s, (h', kv))

/-- RedisStore.Set (redis store source, lines 53-71): marshals the
session and stores it under the namespaced key with
`ttl := time.Until(session.ExpiresAt)`, replaced by the configured
`MaxAge` when that is not positive. -/
def RedisStore.Set (maxAge : Int) (now : Int) (sess : Session) :
    Heap × RedisKV → Outcome Unit × (Heap × RedisKV) :=
  fun (h, kv) =>
    let ttl0 : Int := sess.expiresAt - now
    let ttl : Int := if ttl0 ≤ 0 then maxAge else ttl0
    (.ok (), (h, mapInsert kv (redisKey sess.id) ⟨marshalSession h sess, ttl⟩))

/-- RedisStore.Delete (redis store source, lines 74-82). -/
def RedisStore.Delete (sessionID : String) :
    Heap × RedisKV → Outcome Unit × (Heap × RedisKV) :=
  fun (h, kv) => (.ok (), (h, mapErase kv (redisKey sessionID)))

/-- RedisStore.Exists (redis store source, lines 85-93): key-count check. -/
def RedisStore.Exists (_now : Int) (sessionID : String) :
    Heap × RedisKV → Outcome Bool × (Heap × RedisKV) :=
  fun (h, kv) =>
    ((mapLookup kv (redisKey sessionID)).elim (.ok false) (fun _ => .ok true),
      (h, kv))

/-- RedisStore.Cleanup (redis store source, lines 96-100): a no-op, the
backend expires keys natively. -/
def RedisStore.Cleanup (_now : Int) :
    Heap × RedisKV → Outcome Unit × (Heap × RedisKV) :=
  fun w => (.ok (), w)

/-- Store interface (`session.go`, type `Store`): the six operations a
backend provides, each acting on the shared map heap plus the backend's
own state `σ`; `now` stands for the `time.Now()` calls the operation
makes. -/
structure StoreOps (σ : Type) where
  get : Int → String → Heap × σ → Outcome Session × (Heap × σ)
  set : Int → Session → Heap × σ → Outcome Unit × (Heap × σ)
  del : Int → String → Heap × σ → Outcome Unit × (Heap × σ)
  exs : Int → String → Heap × σ → Outcome Bool × (Heap × σ)
  cleanup : Int → Heap × σ → Outcome Unit × (Heap × σ)
  close : Heap × σ → Outcome Unit × (Heap × σ)

/-- The memory backend as a Store instance. -/
def memStoreOps : StoreOps MemoryStore where
  get := MemoryStore.Get
  set := MemoryStore.Set
  del := fun _ id w => MemoryStore.Delete id w
  exs := MemoryStore.Exists
  cleanup := MemoryStore.Cleanup
  close := MemoryStore.Close

/-- The redis backend as a Store instance (its `Set` reads the configured
max-age for the TTL fallback). -/
def redisStoreOps (cfg : SessionConfig) : StoreOps RedisKV where
  get := RedisStore.Get
  set := fun now sess w => RedisStore.Set cfg.maxAge now sess w
  del := fun _ id w => RedisStore.Delete id w
  exs := RedisStore.Exists
  cleanup := RedisStore.Cleanup
  close := fun w => (.ok (), w)

/-- Session manager (`session.go`, type `Manager`): wraps one store and
the configuration. -/
structure Manager (σ : Type) where
  store : StoreOps σ
  config : SessionConfig

/-- Manager.GetSession (`session.go` lines 97-114): empty id is rejected
before the store is consulted; a store error propagates; a returned
session whose expiry has passed is deleted (the delete's error return is
ignored, a fault in it would still propagate) and reported as expired;
otherwise the store's session is returned as-is. -/
def Manager.GetSession {σ : Type} (mg : Manager σ) (now : Int)
    (sessionID : String) (w : Heap × σ) : Outcome Session × (Heap × σ) :=
  if sessionID = "" then (.err .idRequired, w)
  else
    match mg.store.get now sessionID w with
    | (.ok s, w') =>
        if s.expiresAt < now then
          match mg.store.del now sessionID w' with
          | (.panic p, w'') => (.panic p, w'')
          | (_, w'') => (.err .expired, w'')
        else (.ok s, w')
    | (.err e, w') => (.err e, w')
    | (.panic p, w') => (.panic p, w')

/-- Manager.CreateSession (`session.go` lines 75-94): builds a session
with a fresh id (the uuid is a parameter here), an empty freshly
allocated data map, `createdAt = updatedAt = now` and
`expiresAt = now + maxAge`, persists it, and returns it. -/
def Manager.CreateSession {σ : Type} (mg : Manager σ) (now : Int)
    (sessionID : String) (w : Heap × σ) : Outcome Session × (Heap × σ) :=
  let (h, b) := w
  let (h', r) := heapAlloc h []
  let sess : Session :=
    { id := sessionID, dataRef := r, createdAt := now, updatedAt := now,
      expiresAt := now + mg.config.maxAge }
  match mg.store.set now sess (h', b) with
  | (.ok _, w') => (.ok sess, w')
  | (.err e, w') => (.err e, w')
  | (.panic p, w') => (.panic p, w')

/-- Manager.SaveSession (`session.go` lines 117-124): stamps
`updatedAt = now` and delegates to the store's Set (the nil-session guard
is unrepresentable for a value-typed session). -/
def Manager.SaveSession {σ : Type} (mg : Manager σ) (now : Int)
    (sess : Session) (w : Heap × σ) : Outcome Unit × (Heap × σ) :=
  mg.store.set now { sess with updatedAt := now } w

/-- Manager.DeleteSession (`session.go` lines 127-133). -/
def Manager.DeleteSession {σ : Type} (mg : Manager σ) (now : Int)
    (sessionID : String) (w : Heap × σ) : Outcome Unit × (Heap × σ) :=
  if sessionID = "" then (.err .idRequired, w)
  else mg.store.del now sessionID w

/-- Manager.RefreshSession (`session.go` lines 136-144): fetch (failing
if missing/expired), set `expiresAt = now + maxAge`, save. -/
def Manager.RefreshSession {σ : Type} (mg : Manager σ) (now : Int)
    (sessionID : String) (w : Heap × σ) : Outcome Unit × (Heap × σ) :=
  match mg.GetSession now sessionID w with
  | (.ok s, w') =>
      mg.SaveSession now { s with expiresAt := now + mg.config.maxAge } w'
  | (.err e, w') => (.err e, w')
  | (.panic p, w') => (.panic p, w')

/-- Manager.SetSessionData (`session.go` lines 147-155): fetch, mutate
the fetched session's data map in place (`session.Data[key] = value`),
save. -/
def Manager.SetSessionData {σ : Type} (mg : Manager σ) (now : Int)
    (sessionID : String) (key : String) (value : SVal) (w : Heap × σ) :
    Outcome Unit × (Heap × σ) :=
  match mg.GetSession now sessionID w with
  | (.ok s, (h, b)) =>
      let h' := heapWrite h s.dataRef (mapInsert (heapRead h s.dataRef) key value)
      mg.SaveSession now s (h', b)
  | (.err e, w') => (.err e, w')
  | (.panic p, w') => (.panic p, w')

/-- Manager.GetSessionData (`session.go` lines 158-170): fetch, then look
the key up in the fetched session's data map; an absent key is
`session data not found`. -/
def Manager.GetSessionData {σ : Type} (mg : Manager σ) (now : Int)
    (sessionID : String) (key : String) (w : Heap × σ) :
    Outcome SVal × (Heap × σ) :=
  match mg.GetSession now sessionID w with
  | (.ok s, (h, b)) =>
      match mapLookup (heapRead h s.dataRef) key with
      | some v => (.ok v, (h, b))
      | none => (.err .dataNotFound, (h, b))
  | (.err e, w') => (.err e, w')
  | (.panic p, w') => (.panic p, w')

/-- The store a successful Manager construction wraps. -/
inductive BuiltStore : Type
  | memory
  | redis
deriving DecidableEq, Repr

/-- NewManager (`session.go` lines 48-72): nil config is rejected; the
store kind is selected by a string switch on `cfg.Store` — `"redis"`
requires a remote client (`some ()` models a live client handle,
`none` a nil one), `"memory"` needs nothing, and any other name is a
configuration error. -/
def NewManager (cfg : Option SessionConfig) (redisClient : Option Unit) :
    Except SErr BuiltStore :=
  match cfg with
  | none => .error .configRequired
  | some c =>
      if c.store = "redis" then
        match redisClient with
        | none => .error .redisClientRequired
        | some _ => .ok .redis
      else if c.store = "memory" then .ok .memory
      else .error (.unsupportedStore c.store)

/-- Operations performed on the memory store's `sync.RWMutex`. -/
inductive LockOp : Type
  | rlock
  | runlock
  | lock
  | unlock
deriving DecidableEq, Repr

/-- State of an RWMutex as seen by a single goroutine running one store
operation with no contention: how many read holds it has, and whether it
holds the write lock. -/
structure LockState where
  readers : Nat
  writer : Bool
deriving DecidableEq, Repr

/-- The lock held by nobody. -/
def lockFree : LockState := ⟨0, false⟩

/-- Effect of one lock operation; `none` is a fault: releasing a lock
that is not held (`sync: RUnlock of unlocked RWMutex` /
`sync: Unlock of unlocked RWMutex`), or self-deadlock by re-acquiring. -/
def lockStep (st : LockState) (op : LockOp) : Option LockState :=
  match op with
  | .rlock => if st.writer then none else some ⟨st.readers + 1, st.writer⟩
  | .runlock =>
      match st.readers with
      | 0 => none
      | n + 1 => some ⟨n, st.writer⟩
  | .lock => if st.writer || decide (st.readers ≠ 0) then none else some ⟨st.readers, true⟩
  | .unlock => if st.writer then some ⟨st.readers, false⟩ else none

/-- Running a sequence of lock operations from a given state. -/
def runLockOps (st : LockState) : List LockOp → Option LockState
  | [] => some st
  | op :: ops =>
      match lockStep st op with
      | none => none
      | some st' => runLockOps st' ops

/-- A balanced execution: starting from the free lock it faults nowhere
and ends with the lock free again. -/
abbrev lockBalanced (ops : List LockOp) : Prop :=
  runLockOps lockFree ops = some lockFree

/-- Lock operations performed by one call to MemoryStore.Get
(`memory_store.go` lines 36-63), by whether the entry is present and
whether it is expired: `RLock` plus the deferred `RUnlock` always; the
expired branch additionally releases the read lock, takes and releases
the write lock for the delete, and re-acquires the read lock before
returning. -/
def memGetLockOps (present expired : Bool) : List LockOp :=
  if present && expired then
    [.rlock, .runlock, .lock, .unlock, .rlock, .runlock]
  else
    [.rlock, .runlock]

/-- Lock operations performed by one call to MemoryStore.Exists
(`memory_store.go` lines 97-116): as in `Get`, except that the expired
branch returns WITHOUT re-acquiring the read lock, so the deferred
`RUnlock` still fires at the end. -/
def memExistsLockOps (present expired : Bool) : List LockOp :=
  if present && expired then
    [.rlock, .runlock, .lock, .unlock, .runlock]
  else
    [.rlock, .runlock]

/-- Lock operations performed by MemoryStore.Set, Delete, Cleanup and
Close: a plain exclusive `Lock` with its deferred `Unlock`. -/
def memWriteLockOps : List LockOp :=
  [.lock, .unlock]

/-- Stored session under an id, read directly off a memory-store state. -/
def storedSession (w : MemState) (sessionID : String) : Option Session :=
  w.2.data.bind (fun tbl => mapLookup tbl sessionID)

/-- Data map carried by the session a Get-like call returned: the map
contents designated by the returned session's reference, in the heap the
call left behind. -/
def gotData (p : Outcome Session × MemState) : Option DataMap :=
  match p with
  | (.ok s, (h, _)) => some (heapRead h s.dataRef)
  | _ => none

theorem heapRead_append_self (h : Heap) (d : DataMap) :
    heapRead (h ++ [d]) h.length = d := by
  induction h with
  | nil => rfl
  | cons a t ih =>
      simp [heapRead, List.cons_append, List.length_cons, List.getD_cons_succ]

theorem heapRead_append_lt (h : Heap) (d : DataMap) (r : Nat)
    (hr : r < h.length) : heapRead (h ++ [d]) r = heapRead h r := by
  induction h generalizing r with
  | nil => exact absurd hr (by simp)
  | cons a t ih =>
      cases r with
      | zero => rfl
      | succ n =>
          have hn : n < t.length := by simpa [List.length_cons] using hr
          simpa [heapRead, List.cons_append, List.getD_cons_succ] using ih n hn

theorem heapRead_write_ne (h : Heap) (r r' : Nat) (d : DataMap)
    (hne : r ≠ r') : heapRead (heapWrite h r' d) r = heapRead h r := by
  induction h generalizing r r' with
  | nil => rfl
  | cons a t ih =>
      cases r' with
      | zero =>
          cases r with
          | zero => exact absurd rfl hne
          | succ n => simp [heapRead, heapWrite, List.set, List.getD_cons_succ]
      | succ n' =>
          cases r with
          | zero => simp [heapRead, heapWrite, List.set]
          | succ n =>
              simpa [heapRead, heapWrite, List.set, List.getD_cons_succ]
                using ih n n' (by omega)

theorem mapLookup_mapInsert_self {α : Type} (m : List (String × α))
    (k : String) (v : α) : mapLookup (mapInsert m k v) k = some v := by
  induction m with
  | nil => simp [mapLookup, mapInsert]
  | cons kv rest ih =>
      obtain ⟨k', v'⟩ := kv
      by_cases hk : k' = k
      · simp [mapInsert, hk, mapLookup]
      · simp [mapInsert, hk, mapLookup, ih]

theorem mapLookup_mapInsert_ne {α : Type} (m : List (String × α))
    (k k' : String) (v : α) (hne : k ≠ k') :
    mapLookup (mapInsert m k v) k' = mapLookup m k' := by
  induction m with
  | nil => simp [mapLookup, mapInsert, hne]
  | cons kv rest ih =>
      obtain ⟨k0, v0⟩ := kv
      by_cases hk : k0 = k
      · simp [mapInsert, hk, mapLookup, hne]
      · simp [mapInsert, hk, mapLookup, ih]

theorem mapLookup_filter_of_not_mem {α : Type} (p : String × α → Bool)
    (m : List (String × α)) (k : String) (hk : k ∉ m.map Prod.fst) :
    mapLookup (m.filter p) k = none := by
  induction m with
  | nil => rfl
  | cons kv rest ih =>
      obtain ⟨k0, v0⟩ := kv
      have hk0 : k0 ≠ k := by
        intro hEq
        exact hk (by simp [hEq])
      have hkr : k ∉ rest.map Prod.fst := by
        intro hmem
        exact hk (by simp [hmem])
      by_cases hp : p (k0, v0)
      · simp [List.filter, hp, mapLookup, hk0, ih hkr]
      · simp [List.filter, hp, ih hkr]

theorem mapLookup_filter_value {α : Type} (q : α → Bool)
    (m : List (String × α)) (hnd : keysNodup m) (k : String) :
    mapLookup (m.filter (fun kv => q kv.2)) k =
      match mapLookup m k with
      | some v => if q v then some v else none
      | none => none := by
  induction m with
  | nil => rfl
  | cons kv rest ih =>
      obtain ⟨k0, v0⟩ := kv
      have hnd' : keysNodup rest := by
        have := hnd
        simp only [keysNodup, List.map_cons, List.nodup_cons] at this
        exact this.2
      have hk0 : k0 ∉ rest.map Prod.fst := by
        have := hnd
        simp only [keysNodup, List.map_cons, List.nodup_cons] at this
        exact this.1
      by_cases hk : k0 = k
      · subst hk
        by_cases hq : q v0
        · simp [List.filter, hq, mapLookup]
        · simp [List.filter, hq, mapLookup,
            mapLookup_filter_of_not_mem (fun kv => q kv.2) rest k0 hk0]
      · by_cases hq : q v0
        · simp [List.filter, hq, mapLookup, hk, ih hnd']
        · simp [List.filter, hq, mapLookup, hk, ih hnd']

/-- C1: the claim states that every memory store operation is
lock-balanced and that `Exists` on an expired-but-present session
completes without fault, returns false and lazily deletes the entry.
The code violates this: `Get`'s expired branch re-acquires the read lock
before returning (balanced), but `Exists`'s expired branch does not, so
its deferred `RUnlock` fires on a lock with no read holds — the Go
runtime fault `sync: RUnlock of unlocked RWMutex`. This theorem shows:
every `Get` path and every write-locked operation is balanced, `Exists`
is balanced on its non-expired paths, but the present-and-expired
`Exists` path faults; evaluating the modelled `Exists` on a store
holding the expired session `"sid"` at instant 1 yields the fault (with
the entry already deleted) instead of `ok false`. -/
theorem claim_C1_exists_expired_lock_fault :
    (∀ present expired : Bool, lockBalanced (memGetLockOps present expired)) ∧
    lockBalanced memWriteLockOps ∧
    lockBalanced (memExistsLockOps false false) ∧
    lockBalanced (memExistsLockOps false true) ∧
    lockBalanced (memExistsLockOps true false) ∧
    runLockOps lockFree (memExistsLockOps true true) = none ∧
    (MemoryStore.Exists 1 "sid"
        (([[]] : Heap), ⟨some [("sid", ⟨"sid", 0, 0, 0, 0⟩)]⟩)).1 =
      .panic "sync: RUnlock of unlocked RWMutex" ∧
    (MemoryStore.Exists 1 "sid"
        (([[]] : Heap), ⟨some [("sid", ⟨"sid", 0, 0, 0, 0⟩)]⟩)).2.2.data =
      some [] := by
  refine ⟨by decide, by decide, by decide, by decide, by decide, by decide,
    by decide, by decide⟩

/-- C2, counterexample: the claim states that the redis store persists
every session with a TTL equal to `expiresAt - now`, including when
`expiresAt` is already past. For a session whose `expiresAt` is 0 stored
at instant 5 with configured max-age 100, the code stores TTL 100, not
`expiresAt - now = -5`. -/
theorem claim_C2_counterexample :
    mapLookup ((RedisStore.Set 100 5 ⟨"s", 0, 0, 0, 0⟩
        (([[]] : Heap), ([] : RedisKV))).2.2) (redisKey "s") =
      some ⟨⟨"s", [], 0, 0, 0⟩, 100⟩ ∧
    ((0 : Int) - 5 ≠ 100) := by
  refine ⟨by decide, by decide⟩

/-- C2, amended: the redis store persists every session under the
namespaced key with `ttl = expiresAt - now` when that is positive, and
falls back to the configured max-age when `expiresAt - now ≤ 0`
(in particular when `expiresAt` is already past). -/
theorem claim_C2_amended (maxAge now : Int) (sess : Session) (h : Heap)
    (kv : RedisKV) :
    mapLookup ((RedisStore.Set maxAge now sess (h, kv)).2.2) (redisKey sess.id) =
      some ⟨marshalSession h sess,
        if sess.expiresAt - now ≤ 0 then maxAge else sess.expiresAt - now⟩ := by
  simp [RedisStore.Set, mapLookup_mapInsert_self]

/-- C9: Manager construction fails with a configuration error when the
configured store name is neither `"redis"` nor `"memory"`, fails when
`"redis"` is selected without a client, and on success wraps exactly one
store of the configured kind. -/
theorem claim_C9_newManager_spec (name : String) (maxAge : Int)
    (client : Option Unit) :
    (name ≠ "redis" → name ≠ "memory" →
      NewManager (some ⟨name, maxAge⟩) client =
        .error (.unsupportedStore name)) ∧
    (name = "redis" → client = none →
      NewManager (some ⟨name, maxAge⟩) client = .error .redisClientRequired) ∧
    (∀ b, NewManager (some ⟨name, maxAge⟩) client = .ok b →
      (name = "memory" ∧ b = .memory) ∨
      (name = "redis" ∧ b = .redis ∧ client ≠ none)) := by
  refine ⟨?_, ?_, ?_⟩
  · intro hr hm
    simp [NewManager, hr, hm]
  · intro hr hc
    subst hr hc
    simp [NewManager]
  · intro b hb
    by_cases hr : name = "redis"
    · subst hr
      cases client with
      | none => simp [NewManager] at hb
      | some c =>
          simp [NewManager] at hb
          exact Or.inr ⟨rfl, hb.symm, by simp⟩
    · by_cases hm : name = "memory"
      · subst hm
        simp [NewManager, hr] at hb
        exact Or.inl ⟨rfl, hb.symm⟩
      · simp [NewManager, hr, hm] at hb

/-- C9 witness: an unsupported name fails, `"redis"` without a client
fails, and a successful `"memory"` construction wraps the memory store. -/
theorem claim_C9_witness :
    NewManager (some ⟨"mysql", 5⟩) none = .error (.unsupportedStore "mysql") ∧
    NewManager (some ⟨"redis", 5⟩) none = .error .redisClientRequired ∧
    (("memory" = "memory" ∧ BuiltStore.memory = BuiltStore.memory) ∨
      ("memory" = "redis" ∧ BuiltStore.memory = .redis ∧
        (none : Option Unit) ≠ none)) := by
  refine ⟨?_, ?_, ?_⟩
  · exact (claim_C9_newManager_spec "mysql" 5 none).1 (by decide) (by decide)
  · exact (claim_C9_newManager_spec "redis" 5 none).2.1 rfl rfl
  · exact (claim_C9_newManager_spec "memory" 5 none).2.2 .memory rfl

/-- C10: after `Close` (which sets the map to nil), `Get`, `Exists` and
`Delete` on any id complete without fault — not-found, `false`, and a
nil-error no-op respectively — while `Set` of any session faults with a
nil-map write instead of returning an error. -/
theorem claim_C10_closed_store (w : MemState) (now : Int)
    (sessionID : String) (sess : Session) :
    (MemoryStore.Close w).1 = .ok () ∧
    MemoryStore.Get now sessionID (MemoryStore.Close w).2 =
      (.err .notFound, (MemoryStore.Close w).2) ∧
    MemoryStore.Exists now sessionID (MemoryStore.Close w).2 =
      (.ok false, (MemoryStore.Close w).2) ∧
    MemoryStore.Delete sessionID (MemoryStore.Close w).2 =
      (.ok (), (MemoryStore.Close w).2) ∧
    (MemoryStore.Set now sess (MemoryStore.Close w).2).1 =
      .panic "assignment to entry in nil map" := by
  obtain ⟨h, m⟩ := w
  refine ⟨rfl, rfl, rfl, rfl, rfl⟩

/-- C3: `Manager.GetSession` rejects the empty id with an
invalid-argument error without consulting the store; when the store
returns a session whose expiry has already passed, the manager deletes
that id from the store (the delete's error return is ignored; it is only
required not to fault) and fails with the session-expired error; when
the store returns a live session, the manager returns exactly that
session and the store state the Get left behind. Stated over an
arbitrary store implementation. -/
theorem claim_C3_getSession_spec (σ : Type) (st : StoreOps σ)
    (cfg : SessionConfig) (now : Int) (sessionID : String) (w : Heap × σ) :
    (sessionID = "" →
      Manager.GetSession ⟨st, cfg⟩ now sessionID w = (.err .idRequired, w)) ∧
    (∀ s w', sessionID ≠ "" → st.get now sessionID w = (.ok s, w') →
      s.expiresAt < now →
      (∀ p, (st.del now sessionID w').1 ≠ .panic p) →
      Manager.GetSession ⟨st, cfg⟩ now sessionID w =
        (.err .expired, (st.del now sessionID w').2)) ∧
    (∀ s w', sessionID ≠ "" → st.get now sessionID w = (.ok s, w') →
      ¬ s.expiresAt < now →
      Manager.GetSession ⟨st, cfg⟩ now sessionID w = (.ok s, w')) := by
  refine ⟨?_, ?_, ?_⟩
  · intro hid
    simp [Manager.GetSession, hid]
  · intro s w' hid hget hexp hnp
    cases hdel : st.del now sessionID w' with
    | mk dres w'' =>
        cases dres with
        | ok u => simp [Manager.GetSession, hid, hget, hexp, hdel]
        | err e => simp [Manager.GetSession, hid, hget, hexp, hdel]
        | panic p =>
            have : (st.del now sessionID w').1 = .panic p := by rw [hdel]
            exact absurd this (hnp p)
  · intro s w' hid hget hexp
    simp [Manager.GetSession, hid, hget, hexp]

/-- C3 witness: with the redis store (whose Get performs no expiry check,
so a stale entry reaches the manager), the manager rejects the empty id,
turns a stale entry into a session-expired failure with the entry
deleted, and passes a live entry through unchanged. -/
theorem claim_C3_witness :
    Manager.GetSession ⟨redisStoreOps ⟨"redis", 50⟩, ⟨"redis", 50⟩⟩ 5 ""
        (([] : Heap), [("session:s", ⟨⟨"s", [], 0, 0, 0⟩, 7⟩)]) =
      (.err .idRequired,
        (([] : Heap), [("session:s", ⟨⟨"s", [], 0, 0, 0⟩, 7⟩)])) ∧
    Manager.GetSession ⟨redisStoreOps ⟨"redis", 50⟩, ⟨"redis", 50⟩⟩ 5 "s"
        (([] : Heap), [("session:s", ⟨⟨"s", [], 0, 0, 0⟩, 7⟩)]) =
      (.err .expired, (([[]] : Heap), ([] : RedisKV))) ∧
    Manager.GetSession ⟨redisStoreOps ⟨"redis", 50⟩, ⟨"redis", 50⟩⟩ 5 "s"
        (([] : Heap), [("session:s", ⟨⟨"s", [], 0, 0, 10⟩, 7⟩)]) =
      (.ok ⟨"s", 0, 0, 0, 10⟩,
        (([[]] : Heap), [("session:s", ⟨⟨"s", [], 0, 0, 10⟩, 7⟩)])) := by
  refine ⟨?_, ?_, ?_⟩
  · exact (claim_C3_getSession_spec RedisKV (redisStoreOps ⟨"redis", 50⟩)
      ⟨"redis", 50⟩ 5 ""
      (([] : Heap), [("session:s", ⟨⟨"s", [], 0, 0, 0⟩, 7⟩)])).1 rfl
  · exact (claim_C3_getSession_spec RedisKV (redisStoreOps ⟨"redis", 50⟩)
      ⟨"redis", 50⟩ 5 "s"
      (([] : Heap), [("session:s", ⟨⟨"s", [], 0, 0, 0⟩, 7⟩)])).2.1
      ⟨"s", 0, 0, 0, 0⟩ (([[]] : Heap), [("session:s", ⟨⟨"s", [], 0, 0, 0⟩, 7⟩)])
      (by decide) (by decide) (by decide)
      (fun p hc => by
        simp [redisStoreOps, RedisStore.Delete] at hc)
  · exact (claim_C3_getSession_spec RedisKV (redisStoreOps ⟨"redis", 50⟩)
      ⟨"redis", 50⟩ 5 "s"
      (([] : Heap), [("session:s", ⟨⟨"s", [], 0, 0, 10⟩, 7⟩)])).2.2
      ⟨"s", 0, 0, 0, 10⟩
      (([[]] : Heap), [("session:s", ⟨⟨"s", [], 0, 0, 10⟩, 7⟩)])
      (by decide) (by decide) (by decide)

theorem heapRead_append_two (h : Heap) (a b : DataMap) :
    heapRead (h ++ [a, b]) (h.length + 1) = b := by
  have hab : h ++ [a, b] = (h ++ [a]) ++ [b] := by simp
  have hl : (h ++ [a]).length = h.length + 1 := by simp
  rw [hab, ← hl]
  exact heapRead_append_self (h ++ [a]) b

/-- C4, counterexample: the claim quantifies over all sessions S, but for
a session that is already expired (`expiresAt = 0`, read at instant 1),
`Get` immediately after `Set` does not return a session at all — it
reports `session expired` (and lazily deletes the entry). -/
theorem claim_C4_counterexample :
    (MemoryStore.Get 1 "s"
        ((MemoryStore.Set 1 ⟨"s", 0, 0, 0, 0⟩ (([[]] : Heap), ⟨some []⟩)).2)).1 =
      .err .expired := by
  decide

/-- C4, amended: for all sessions S whose `expiresAt` has not yet passed,
`Get(S.ID)` immediately after `Set(S)` on the memory store returns a
session equal to S in every field — id, createdAt, updatedAt, expiresAt
are identical and the returned data mapping (a fresh copy, hence the new
reference `h.length + 1`) has exactly S's pairs. -/
theorem claim_C4_amended (h : Heap) (tbl : List (String × Session))
    (S : Session) (now : Int) (hlive : ¬ S.expiresAt < now) :
    (MemoryStore.Get now S.id
        ((MemoryStore.Set now S (h, ⟨some tbl⟩)).2)).1 =
      .ok { S with dataRef := h.length + 1 } ∧
    gotData (MemoryStore.Get now S.id
        ((MemoryStore.Set now S (h, ⟨some tbl⟩)).2)) =
      some (heapRead h S.dataRef) := by
  have hlen : (h ++ [heapRead h S.dataRef]).length = h.length + 1 := by
    simp
  constructor
  · simp [MemoryStore.Set, MemoryStore.Get, heapAlloc,
      mapLookup_mapInsert_self, hlive, hlen]
  · simp [MemoryStore.Set, MemoryStore.Get, heapAlloc, gotData,
      mapLookup_mapInsert_self, hlive, hlen, heapRead_append_self,
      heapRead_append_two]

/-- C4 witness: a concrete live session set at instant 3 with expiry 10
is read back with identical fields and its stored pair `("k", "v")`. -/
theorem claim_C4_witness :
    (MemoryStore.Get 3 "s"
        ((MemoryStore.Set 3 ⟨"s", 0, 5, 6, 10⟩
          (([[("k", "v")]] : Heap), ⟨some []⟩)).2)).1 =
      .ok ⟨"s", 2, 5, 6, 10⟩ ∧
    gotData (MemoryStore.Get 3 "s"
        ((MemoryStore.Set 3 ⟨"s", 0, 5, 6, 10⟩
          (([[("k", "v")]] : Heap), ⟨some []⟩)).2)) =
      some [("k", "v")] := by
  have := claim_C4_amended [[("k", "v")]] [] ⟨"s", 0, 5, 6, 10⟩ 3 (by decide)
  simpa using this

theorem heapRead_append_fst (h : Heap) (a b : DataMap) :
    heapRead (h ++ [a, b]) h.length = a := by
  have hab : h ++ [a, b] = (h ++ [a]) ++ [b] := by simp
  have hlt : h.length < (h ++ [a]).length := by simp
  rw [hab, heapRead_append_lt _ _ _ hlt]
  exact heapRead_append_self h a

/-- C5: copy-isolation of the memory store. Starting from a store state
whose heap contains S's map object, `Set(S)` stores a fresh copy of S's
data map, a first `Get(S.ID)` returns a session carrying another fresh
copy (its reference is `h.length + 1`, confirmed by the first conjunct);
then however the caller overwrites both its own map object
(`S.dataRef`) and the map object the Get returned, a subsequent `Get`
still returns exactly the pairs S had when `Set` ran. -/
theorem claim_C5_data_isolation (h : Heap) (tbl : List (String × Session))
    (S : Session) (now : Int) (mut1 mut2 : DataMap)
    (hlive : ¬ S.expiresAt < now) (href : S.dataRef < h.length) :
    (MemoryStore.Get now S.id ((MemoryStore.Set now S (h, ⟨some tbl⟩)).2)).1 =
      .ok { S with dataRef := h.length + 1 } ∧
    gotData (MemoryStore.Get now S.id
        (heapWrite (heapWrite
            (MemoryStore.Get now S.id
              ((MemoryStore.Set now S (h, ⟨some tbl⟩)).2)).2.1
            S.dataRef mut1) (h.length + 1) mut2,
          ((MemoryStore.Set now S (h, ⟨some tbl⟩)).2).2)) =
      some (heapRead h S.dataRef) := by
  have hlen : (h ++ [heapRead h S.dataRef]).length = h.length + 1 := by
    simp
  constructor
  · simp [MemoryStore.Set, MemoryStore.Get, heapAlloc,
      mapLookup_mapInsert_self, hlive, hlen]
  · have hne1 : h.length ≠ h.length + 1 := by omega
    have hne2 : h.length ≠ S.dataRef := by omega
    have hlt : h.length < (h ++ [heapRead h S.dataRef]).length := by
      simp
    simp only [MemoryStore.Set, MemoryStore.Get, heapAlloc, gotData,
      mapLookup_mapInsert_self, hlive, if_neg hlive, hlen]
    simp only [heapRead_append_self]
    simp [gotData, heapRead_append_self, heapRead_append_two,
      heapRead_append_fst,
      heapRead_write_ne _ _ _ _ hne1, heapRead_write_ne _ _ _ _ hne2,
      heapRead_append_lt _ _ _ hlt, heapRead_append_lt,
      mapLookup_mapInsert_self, hlive]

/-- C5 witness: a concrete session with stored pair `("a", "1")`; after
the caller overwrites both its own map object and the one Get returned
with junk, Get still yields `("a", "1")`. -/
theorem claim_C5_witness :
    (MemoryStore.Get 3 "s"
        ((MemoryStore.Set 3 ⟨"s", 0, 0, 0, 10⟩
          (([[("a", "1")]] : Heap), ⟨some []⟩)).2)).1 =
      .ok ⟨"s", 2, 0, 0, 10⟩ ∧
    gotData (MemoryStore.Get 3 "s"
        (heapWrite (heapWrite
            (MemoryStore.Get 3 "s"
              ((MemoryStore.Set 3 ⟨"s", 0, 0, 0, 10⟩
                (([[("a", "1")]] : Heap), ⟨some []⟩)).2)).2.1
            0 [("a", "X")]) 2 [("a", "Y")],
          ((MemoryStore.Set 3 ⟨"s", 0, 0, 0, 10⟩
            (([[("a", "1")]] : Heap), ⟨some []⟩)).2).2)) =
      some [("a", "1")] := by
  have := claim_C5_data_isolation [[("a", "1")]] [] ⟨"s", 0, 0, 0, 10⟩ 3
    [("a", "X")] [("a", "Y")] (by decide) (by decide)
  simpa using this

/-- C6, counterexample: the claim states that every successful
`RefreshSession` on a live session strictly increases `expiresAt`. With
max-age 10, a live session whose `expiresAt` is 100 refreshed at instant
0 succeeds but gets `expiresAt = now + maxAge = 10 < 100`: the expiry
strictly DECREASED. -/
theorem claim_C6_counterexample :
    (Manager.RefreshSession ⟨memStoreOps, ⟨"memory", 10⟩⟩ 0 "s"
        (([[]] : Heap), ⟨some [("s", ⟨"s", 0, 0, 0, 100⟩)]⟩)).1 = .ok () ∧
    storedSession (Manager.RefreshSession ⟨memStoreOps, ⟨"memory", 10⟩⟩ 0 "s"
        (([[]] : Heap), ⟨some [("s", ⟨"s", 0, 0, 0, 100⟩)]⟩)).2 "s" =
      some ⟨"s", 2, 0, 0, 10⟩ ∧
    ¬ (100 : Int) < 10 := by
  refine ⟨by decide, by decide, by decide⟩

/-- C6, amended: a successful `RefreshSession(id)` on the memory store
sets the stored session's `expiresAt` to `now + maxAge` and leaves
`createdAt` unchanged (hence not decreased); `expiresAt` strictly
increases exactly when its prior value was below `now + maxAge` — which
holds for every session whose expiry was computed with the same max-age
at a strictly earlier instant, but fails for sessions whose prior expiry
lies at or beyond `now + maxAge`. -/
theorem claim_C6_amended (h : Heap) (tbl : List (String × Session))
    (sessionID : String) (S : Session) (now maxAge : Int)
    (hid : sessionID ≠ "") (hsid : S.id = sessionID)
    (hlook : mapLookup tbl sessionID = some S)
    (hlive : ¬ S.expiresAt < now)
    (hlt : S.expiresAt < now + maxAge) :
    (Manager.RefreshSession ⟨memStoreOps, ⟨"memory", maxAge⟩⟩ now sessionID
        (h, ⟨some tbl⟩)).1 = .ok () ∧
    (∃ S', storedSession (Manager.RefreshSession
          ⟨memStoreOps, ⟨"memory", maxAge⟩⟩ now sessionID
          (h, ⟨some tbl⟩)).2 sessionID = some S' ∧
      S.expiresAt < S'.expiresAt ∧ S'.createdAt = S.createdAt) := by
  constructor
  · simp [Manager.RefreshSession, Manager.GetSession, Manager.SaveSession,
      memStoreOps, MemoryStore.Get, MemoryStore.Set, heapAlloc,
      hid, hlook, hlive]
  · refine ⟨⟨sessionID, (h ++ [heapRead h S.dataRef]).length, S.createdAt,
      now, now + maxAge⟩, ?_, by simpa using hlt, rfl⟩
    simp [Manager.RefreshSession, Manager.GetSession, Manager.SaveSession,
      memStoreOps, MemoryStore.Get, MemoryStore.Set, heapAlloc,
      storedSession, hid, hlook, hlive, hsid, mapLookup_mapInsert_self]

/-- C6 witness: a session with expiry 20, refreshed at instant 15 with
max-age 10, ends with expiry 25 > 20 and unchanged createdAt. -/
theorem claim_C6_witness :
    (Manager.RefreshSession ⟨memStoreOps, ⟨"memory", 10⟩⟩ 15 "s"
        (([[]] : Heap), ⟨some [("s", ⟨"s", 0, 5, 5, 20⟩)]⟩)).1 = .ok () ∧
    (∃ S', storedSession (Manager.RefreshSession
          ⟨memStoreOps, ⟨"memory", 10⟩⟩ 15 "s"
          (([[]] : Heap), ⟨some [("s", ⟨"s", 0, 5, 5, 20⟩)]⟩)).2 "s" =
        some S' ∧
      (20 : Int) < S'.expiresAt ∧ S'.createdAt = 5) := by
  have := claim_C6_amended [[]] [("s", ⟨"s", 0, 5, 5, 20⟩)] "s"
    ⟨"s", 0, 5, 5, 20⟩ 15 10 (by decide) rfl (by decide) (by decide) (by decide)
  simpa using this

/-- C8: `Cleanup` removes exactly the expired entries — the surviving
table is the original filtered to the non-expired sessions — and, at the
same instant, `Exists` afterwards reports true exactly for the ids that
were present with a non-expired session. -/
theorem claim_C8_cleanup_exact (now : Int) (h : Heap)
    (tbl : List (String × Session)) (hnd : keysNodup tbl) :
    ((MemoryStore.Cleanup now (h, ⟨some tbl⟩)).2.2.data =
      some (tbl.filter (fun kv => !decide (kv.2.expiresAt < now)))) ∧
    (∀ sessionID : String,
      (MemoryStore.Exists now sessionID
          (MemoryStore.Cleanup now (h, ⟨some tbl⟩)).2).1 = .ok true ↔
        ∃ s, mapLookup tbl sessionID = some s ∧ ¬ s.expiresAt < now) := by
  refine ⟨by simp [MemoryStore.Cleanup], ?_⟩
  intro sessionID
  have hfil := mapLookup_filter_value
    (fun s => !decide (s.expiresAt < now)) tbl hnd sessionID
  simp only [MemoryStore.Cleanup, MemoryStore.Exists]
  cases hl : mapLookup tbl sessionID with
  | none =>
      rw [hl] at hfil
      simp only [hfil]
      simp [hl]
  | some s =>
      rw [hl] at hfil
      by_cases hexp : s.expiresAt < now
      · have : mapLookup
            (tbl.filter (fun kv => !decide (kv.2.expiresAt < now)))
            sessionID = none := by
          rw [hfil]; simp [hexp]
        simp only [this]
        constructor
        · intro hc; exact absurd hc (by simp)
        · rintro ⟨s', hs', hlive'⟩
          obtain rfl : s = s' := Option.some.inj hs'
          exact absurd hexp hlive'
      · have : mapLookup
            (tbl.filter (fun kv => !decide (kv.2.expiresAt < now)))
            sessionID = some s := by
          rw [hfil]; simp [hexp]
        simp only [this]
        constructor
        · intro hc
          exact ⟨s, rfl, hexp⟩
        · intro hc
          simp [hexp]

/-- C8 witness: the spec's scenario — five sessions at instant 5, the
two with expiry 0 expired, the three with expiry 10 live. After Cleanup
the store holds exactly the three live entries; `Exists` is true for
each of the three live ids and not true for either expired id. -/
theorem claim_C8_witness :
    ((MemoryStore.Cleanup 5 (([] : Heap),
        ⟨some [("a", ⟨"a", 0, 0, 0, 10⟩), ("b", ⟨"b", 0, 0, 0, 10⟩),
               ("c", ⟨"c", 0, 0, 0, 10⟩), ("d", ⟨"d", 0, 0, 0, 0⟩),
               ("e", ⟨"e", 0, 0, 0, 0⟩)]⟩)).2.2.data =
      some [("a", ⟨"a", 0, 0, 0, 10⟩), ("b", ⟨"b", 0, 0, 0, 10⟩),
            ("c", ⟨"c", 0, 0, 0, 10⟩)]) ∧
    ((MemoryStore.Exists 5 "a" (MemoryStore.Cleanup 5 (([] : Heap),
        ⟨some [("a", ⟨"a", 0, 0, 0, 10⟩), ("b", ⟨"b", 0, 0, 0, 10⟩),
               ("c", ⟨"c", 0, 0, 0, 10⟩), ("d", ⟨"d", 0, 0, 0, 0⟩),
               ("e", ⟨"e", 0, 0, 0, 0⟩)]⟩)).2).1 = .ok true) ∧
    ((MemoryStore.Exists 5 "b" (MemoryStore.Cleanup 5 (([] : Heap),
        ⟨some [("a", ⟨"a", 0, 0, 0, 10⟩), ("b", ⟨"b", 0, 0, 0, 10⟩),
               ("c", ⟨"c", 0, 0, 0, 10⟩), ("d", ⟨"d", 0, 0, 0, 0⟩),
               ("e", ⟨"e", 0, 0, 0, 0⟩)]⟩)).2).1 = .ok true) ∧
    ((MemoryStore.Exists 5 "c" (MemoryStore.Cleanup 5 (([] : Heap),
        ⟨some [("a", ⟨"a", 0, 0, 0, 10⟩), ("b", ⟨"b", 0, 0, 0, 10⟩),
               ("c", ⟨"c", 0, 0, 0, 10⟩), ("d", ⟨"d", 0, 0, 0, 0⟩),
               ("e", ⟨"e", 0, 0, 0, 0⟩)]⟩)).2).1 = .ok true) ∧
    ¬ ((MemoryStore.Exists 5 "d" (MemoryStore.Cleanup 5 (([] : Heap),
        ⟨some [("a", ⟨"a", 0, 0, 0, 10⟩), ("b", ⟨"b", 0, 0, 0, 10⟩),
               ("c", ⟨"c", 0, 0, 0, 10⟩), ("d", ⟨"d", 0, 0, 0, 0⟩),
               ("e", ⟨"e", 0, 0, 0, 0⟩)]⟩)).2).1 = .ok true) ∧
    ¬ ((MemoryStore.Exists 5 "e" (MemoryStore.Cleanup 5 (([] : Heap),
        ⟨some [("a", ⟨"a", 0, 0, 0, 10⟩), ("b", ⟨"b", 0, 0, 0, 10⟩),
               ("c", ⟨"c", 0, 0, 0, 10⟩), ("d", ⟨"d", 0, 0, 0, 0⟩),
               ("e", ⟨"e", 0, 0, 0, 0⟩)]⟩)).2).1 = .ok true) := by
  have hthm := claim_C8_cleanup_exact 5 ([] : Heap)
    [("a", ⟨"a", 0, 0, 0, 10⟩), ("b", ⟨"b", 0, 0, 0, 10⟩),
     ("c", ⟨"c", 0, 0, 0, 10⟩), ("d", ⟨"d", 0, 0, 0, 0⟩),
     ("e", ⟨"e", 0, 0, 0, 0⟩)] (by decide)
  refine ⟨by simpa using hthm.1, ?_, ?_, ?_, ?_, ?_⟩
  · exact (hthm.2 "a").mpr ⟨⟨"a", 0, 0, 0, 10⟩, by decide, by decide⟩
  · exact (hthm.2 "b").mpr ⟨⟨"b", 0, 0, 0, 10⟩, by decide, by decide⟩
  · exact (hthm.2 "c").mpr ⟨⟨"c", 0, 0, 0, 10⟩, by decide, by decide⟩
  · intro hc
    obtain ⟨s, hs, hlive⟩ := (hthm.2 "d").mp hc
    have hsd : s = ⟨"d", 0, 0, 0, 0⟩ := by
      have h' : mapLookup
          [("a", (⟨"a", 0, 0, 0, 10⟩ : Session)), ("b", ⟨"b", 0, 0, 0, 10⟩),
           ("c", ⟨"c", 0, 0, 0, 10⟩), ("d", ⟨"d", 0, 0, 0, 0⟩),
           ("e", ⟨"e", 0, 0, 0, 0⟩)] "d" = some ⟨"d", 0, 0, 0, 0⟩ := by decide
      exact (Option.some.inj (h'.symm.trans hs)).symm
    rw [hsd] at hlive
    exact hlive (by decide)
  · intro hc
    obtain ⟨s, hs, hlive⟩ := (hthm.2 "e").mp hc
    have hse : s = ⟨"e", 0, 0, 0, 0⟩ := by
      have h' : mapLookup
          [("a", (⟨"a", 0, 0, 0, 10⟩ : Session)), ("b", ⟨"b", 0, 0, 0, 10⟩),
           ("c", ⟨"c", 0, 0, 0, 10⟩), ("d", ⟨"d", 0, 0, 0, 0⟩),
           ("e", ⟨"e", 0, 0, 0, 0⟩)] "e" = some ⟨"e", 0, 0, 0, 0⟩ := by decide
      exact (Option.some.inj (h'.symm.trans hs)).symm
    rw [hse] at hlive
    exact hlive (by decide)

/-- C7: starting from a fresh memory store, creating a session and then
writing three distinct key/value pairs one at a time, each via its own
`SetSessionData` call, then reading the three keys back via
`GetSessionData` while the session is live (same instant, non-negative
max-age) yields exactly the three written pairs. -/
theorem claim_C7_roundtrip (sessionID k1 k2 k3 : String) (v1 v2 v3 : SVal)
    (now maxAge : Int) (hid : sessionID ≠ "") (hma : 0 ≤ maxAge)
    (h12 : k1 ≠ k2) (h13 : k1 ≠ k3) (h23 : k2 ≠ k3) :
    (let mgr : Manager MemoryStore := ⟨memStoreOps, ⟨"memory", maxAge⟩⟩
     let w1 := (mgr.CreateSession now sessionID (([] : Heap), ⟨some []⟩)).2
     let w2 := (mgr.SetSessionData now sessionID k1 v1 w1).2
     let w3 := (mgr.SetSessionData now sessionID k2 v2 w2).2
     let w4 := (mgr.SetSessionData now sessionID k3 v3 w3).2
     let r1 := mgr.GetSessionData now sessionID k1 w4
     let r2 := mgr.GetSessionData now sessionID k2 r1.2
     let r3 := mgr.GetSessionData now sessionID k3 r2.2
     r1.1 = .ok v1 ∧ r2.1 = .ok v2 ∧ r3.1 = .ok v3) := by
  have hexp : ¬ (now + maxAge < now) := by omega
  simp only [Manager.CreateSession, Manager.SetSessionData,
    Manager.GetSessionData, Manager.GetSession, Manager.SaveSession,
    memStoreOps, MemoryStore.Get, MemoryStore.Set, heapAlloc, heapRead,
    heapWrite, mapLookup, mapInsert, hid, hexp, h12, h13, h23,
    if_neg hid, if_neg hexp, if_pos rfl, List.cons_append, List.nil_append,
    List.getD_cons_zero, List.getD_cons_succ, List.set_cons_succ,
    List.set_cons_zero, List.length_cons, List.length_nil]
  simp [mapLookup, mapInsert, h12, h13, h23, hexp,
    List.getD_cons_zero, List.getD_cons_succ]

/-- C7 witness: concrete round-trip with keys `a`, `b`, `c` and values
`x`, `y`, `z` at instant 0 with max-age 10. -/
theorem claim_C7_witness :
    (let mgr : Manager MemoryStore := ⟨memStoreOps, ⟨"memory", 10⟩⟩
     let w1 := (mgr.CreateSession 0 "sid" (([] : Heap), ⟨some []⟩)).2
     let w2 := (mgr.SetSessionData 0 "sid" "a" "x" w1).2
     let w3 := (mgr.SetSessionData 0 "sid" "b" "y" w2).2
     let w4 := (mgr.SetSessionData 0 "sid" "c" "z" w3).2
     let r1 := mgr.GetSessionData 0 "sid" "a" w4
     let r2 := mgr.GetSessionData 0 "sid" "b" r1.2
     let r3 := mgr.GetSessionData 0 "sid" "c" r2.2
     r1.1 = .ok "x" ∧ r2.1 = .ok "y" ∧ r3.1 = .ok "z") := by
  have := claim_C7_roundtrip "sid" "a" "b" "c" "x" "y" "z" 0 10
    (by decide) (by decide) (by decide) (by decide) (by decide)
  simpa using this
